import Mathlib

/-!
Shallow embedding of the stock-data caching and refresh engine of
`zamays/stock_tracker` (`src/app/services/stock_service.py`, with the data
model of `src/app/models.py`).

Modelling conventions:
* Timestamps and time differences are rationals (`ℚ`), measured in seconds
  (`timedelta(hours=1)` is `3600`, `timedelta(hours=2)` is `7200`,
  `_min_request_interval = 0.5` is `1/2`).  Python `datetime` arithmetic on
  these quantities is exact, so nothing is lost by using `ℚ`.
* Numeric metric fields (`pe_ratio`, `price`, `market_cap`) are `Option ℚ`
  (`none` models Python `None`).
* The database session is a pair of lists: `stock_cache` rows (one per
  ticker) and the append-only `stocks` history table.  `db.session.add`
  appends; mutating a fetched row is replacing the first matching list
  element in place.
* The Yahoo-Finance boundary (`yf.Ticker(t).info` together with the
  `info.get(...) or info.get(...)` fallbacks) is abstracted as an oracle
  `provider : String → Option ProviderInfo`; `none` models the `except`
  branch (fetch failure).  Whether the oracle was consulted is returned
  explicitly as a `Bool` so that "a provider call occurred" is observable.
* `print` alerts of `check_pe_threshold` are observable through the list of
  evaluator invocations that `update_all_stocks` produces in the model.
-/

namespace StockTracker

/-- Python `a or b` restricted to optional strings: `None` and the empty
string are falsy, anything else is truthy and wins.  Used for
`stock_info.get('company_name') or cached_stock.company_name` (line 136 of
`stock_service.py`). -/
def pyOrStr (a b : Option String) : Option String :=
  match a with
  | some s => if s = "" then b else some s
  | none => b

/-- Python truthiness of an optional float: `None` and `0.0` are falsy.
Used for `if stock_data['pe_ratio']:` (line 395 of `stock_service.py`). -/
def pyTruthy (a : Option ℚ) : Bool :=
  match a with
  | some v => decide (v ≠ 0)
  | none => false

/-- Replace the first element satisfying `p` by its image under `f`; models
a mutation of the object returned by `query.filter_by(...).first()`. -/
def modifyFirst (p : α → Bool) (f : α → α) : List α → List α
  | [] => []
  | a :: as => if p a then f a :: as else a :: modifyFirst p f as

/-- The snapshot fields Yahoo Finance can deliver for one ticker, after the
`info.get('trailingPE') or info.get('forwardPE')` style fallbacks.  Any
field may be absent. -/
structure ProviderInfo where
  company_name : Option String
  pe_ratio : Option ℚ
  price : Option ℚ
  market_cap : Option ℚ
deriving Repr, DecidableEq

/-- Return value of `StockService._fetch_stock_info` (lines 85-111): the
dictionary `{ticker, company_name, pe_ratio, price, market_cap}`, with the
`ticker` key always equal to the argument. -/
structure StockInfo where
  ticker : String
  company_name : Option String
  pe_ratio : Option ℚ
  price : Option ℚ
  market_cap : Option ℚ
deriving Repr, DecidableEq

/-- `StockService._fetch_stock_info` over the provider oracle: on success
the dictionary carries the requested ticker plus the provider's fields, on
any exception the result is `None`. -/
def fetch_stock_info (provider : String → Option ProviderInfo) (ticker : String) :
    Option StockInfo :=
  (provider ticker).map fun info =>
    { ticker := ticker
      company_name := info.company_name
      pe_ratio := info.pe_ratio
      price := info.price
      market_cap := info.market_cap }

/-- Return value of `StockService.fetch_stock_data` (lines 326-346): same as
`_fetch_stock_info` but without `company_name`. -/
structure StockData where
  ticker : String
  pe_ratio : Option ℚ
  price : Option ℚ
  market_cap : Option ℚ
deriving Repr, DecidableEq

/-- `StockService.fetch_stock_data` over the provider oracle. -/
def fetch_stock_data (provider : String → Option ProviderInfo) (ticker : String) :
    Option StockData :=
  (provider ticker).map fun info =>
    { ticker := ticker
      pe_ratio := info.pe_ratio
      price := info.price
      market_cap := info.market_cap }

/-- A row of the `stock_cache` table (`StockCache` in `app/models.py`),
holding the latest known snapshot per ticker.

Note: the `is_favorite` attribute is read and written by the service layer
(`stock_service.py` lines 250, 447-452, 462) and specified for
`LatestCacheEntry`, but `app/models.py` declares no such column on
`StockCache`; the field here is modelled from the spec, defaulting to
`false` for rows created without it. -/
structure StockCacheEntry where
  ticker : String
  company_name : Option String
  pe_ratio : Option ℚ
  price : Option ℚ
  market_cap : Option ℚ
  is_favorite : Bool
  last_updated : ℚ
deriving Repr, DecidableEq

/-- A row of the append-only `stocks` history table (`Stock` in
`app/models.py`). -/
structure StockRow where
  ticker : String
  pe_ratio : Option ℚ
  price : Option ℚ
  market_cap : Option ℚ
  timestamp : ℚ
deriving Repr, DecidableEq

/-- The persistent state: the latest-snapshot cache and the historical
series store. -/
structure DB where
  cache : List StockCacheEntry
  history : List StockRow
deriving Repr, DecidableEq

/-- `StockService._is_stock_data_stale` (lines 155-166): stale iff strictly
more than one hour has passed since `last_updated`. -/
def is_stock_data_stale (cached_stock : StockCacheEntry) (now : ℚ) : Bool :=
  decide (now - cached_stock.last_updated > 3600)

/-- `StockService._update_stock_cache` (lines 113-153).  Returns the new
database state, the entry handed back to the caller (`none` models the
Python `None` result), and whether `_fetch_stock_info` was invoked. -/
def update_stock_cache (db : DB) (ticker : String) (company_name : Option String)
    (now : ℚ) (provider : String → Option ProviderInfo) :
    DB × Option StockCacheEntry × Bool :=
  match db.cache.find? (fun e => e.ticker == ticker) with
  | some cached_stock =>
    if now - cached_stock.last_updated < 3600 then
      (db, some cached_stock, false)
    else
      match fetch_stock_info provider ticker with
      | none => (db, some cached_stock, true)
      | some stock_info =>
        let cached' : StockCacheEntry :=
          { cached_stock with
            company_name := pyOrStr stock_info.company_name cached_stock.company_name
            pe_ratio := stock_info.pe_ratio
            price := stock_info.price
            market_cap := stock_info.market_cap
            last_updated := now }
        ({ db with
            cache := modifyFirst (fun e => e.ticker == ticker) (fun _ => cached') db.cache },
          some cached', true)
  | none =>
    match fetch_stock_info provider ticker with
    | none => (db, none, true)
    | some stock_info =>
      let cached' : StockCacheEntry :=
        { ticker := ticker
          company_name := pyOrStr stock_info.company_name company_name
          pe_ratio := stock_info.pe_ratio
          price := stock_info.price
          market_cap := stock_info.market_cap
          is_favorite := false
          last_updated := now }
      ({ db with cache := db.cache ++ [cached'] }, some cached', true)

/-- `StockService.add_stock_to_cache` (lines 294-324): register a ticker
with null metric fields and `last_updated` backdated by two hours; reports
whether a row was inserted. -/
def add_stock_to_cache (db : DB) (ticker : String) (company_name : Option String)
    (now : ℚ) : DB × Bool :=
  match db.cache.find? (fun e => e.ticker == ticker) with
  | some _ => (db, false)
  | none =>
    let new_cache : StockCacheEntry :=
      { ticker := ticker
        company_name := company_name
        pe_ratio := none
        price := none
        market_cap := none
        is_favorite := false
        last_updated := now - 7200 }
    ({ db with cache := db.cache ++ [new_cache] }, true)

/-- `StockService.toggle_favorite` (lines 430-453): flip the favorite flag
of the cached row; `none` models the `{'success': False, ...}` result. -/
def toggle_favorite (db : DB) (ticker : String) : DB × Option Bool :=
  match db.cache.find? (fun e => e.ticker == ticker) with
  | none => (db, none)
  | some cached_stock =>
    ({ db with
        cache := modifyFirst (fun e => e.ticker == ticker)
          (fun e => { e with is_favorite := !e.is_favorite }) db.cache },
      some (!cached_stock.is_favorite))

/-- `StockService.check_pe_threshold` (lines 367-377): true iff the P/E
ratio is present and strictly below the threshold. -/
def check_pe_threshold (pe_ratio : Option ℚ) (threshold : ℚ) : Bool :=
  match pe_ratio with
  | some v => decide (v < threshold)
  | none => false

/-- `StockService.save_stock_data` (lines 348-365): append one history row
timestamped `now`; a falsy argument saves nothing. -/
def save_stock_data (db : DB) (stock_data : Option StockData) (now : ℚ) :
    DB × Option StockRow :=
  match stock_data with
  | none => (db, none)
  | some sd =>
    let stock : StockRow :=
      { ticker := sd.ticker
        pe_ratio := sd.pe_ratio
        price := sd.price
        market_cap := sd.market_cap
        timestamp := now }
    ({ db with history := db.history ++ [stock] }, some stock)

/-- `StockService.update_all_stocks` (lines 379-402).  Returns the new
database state, the list of saved rows (the Python `results`), and the
trace of `check_pe_threshold` invocations as `(ticker, returned flag)`
pairs — the invocation happens only under `if stock_data['pe_ratio']:`. -/
def update_all_stocks (db : DB) (tickers : List String) (threshold : ℚ)
    (provider : String → Option ProviderInfo) (now : ℚ) :
    DB × List StockRow × List (String × Bool) :=
  match tickers with
  | [] => (db, [], [])
  | ticker :: rest =>
    match fetch_stock_data provider ticker with
    | none => update_all_stocks db rest threshold provider now
    | some stock_data =>
      let s := save_stock_data db (some stock_data) now
      let evals :=
        if pyTruthy stock_data.pe_ratio then
          [(ticker, check_pe_threshold stock_data.pe_ratio threshold)]
        else []
      let r := update_all_stocks s.1 rest threshold provider now
      (r.1, s.2.toList ++ r.2.1, evals ++ r.2.2)

/-- `StockService.get_historical_pe_data` (lines 404-412): the `limit` most
recent history rows of the ticker, most-recent-first from the store, then
reversed to ascending order. -/
def get_historical_pe_data (db : DB) (ticker : String) (limit : ℕ) : List StockRow :=
  let stocks :=
    ((db.history.filter (fun r => r.ticker == ticker)).mergeSort
      (fun a b => decide (b.timestamp ≤ a.timestamp))).take limit
  stocks.reverse

/-- `StockService._min_request_interval` (line 17). -/
def min_request_interval : ℚ := 1/2

/-- State of the idealised wall clock together with
`StockService._last_request_time` (line 16).  `now` is the value
`time.time()` would return; `time.sleep(d)` advances `now` by exactly `d`
(real sleeps only take longer, which strengthens the lower bounds proved
below). -/
structure RLState where
  now : ℚ
  last_request_time : ℚ
deriving Repr, DecidableEq

/-- `StockService._enforce_rate_limit` (lines 73-83) under the idealised
clock: sleep exactly the missing part of the interval, then record the new
passage time. -/
def enforce_rate_limit (s : RLState) : RLState :=
  let time_since_last_request := s.now - s.last_request_time
  let now' :=
    if time_since_last_request < min_request_interval then
      s.now + (min_request_interval - time_since_last_request)
    else s.now
  { now := now', last_request_time := now' }

/-- Passage times of a back-to-back sequence of `_enforce_rate_limit`
calls: `ds` lists the (nonnegative) amounts of wall time elapsing before
each call, and each element of the result is the `_last_request_time`
recorded by the corresponding call. -/
def passage_times (s : RLState) : List ℚ → List ℚ
  | [] => []
  | d :: ds =>
    let s1 := enforce_rate_limit { s with now := s.now + d }
    s1.last_request_time :: passage_times s1 ds

/-! ### Helper lemmas -/

theorem find?_modifyFirst (p : α → Bool) (f : α → α) (l : List α)
    (hf : ∀ x, p (f x) = p x) :
    (modifyFirst p f l).find? p = (l.find? p).map f := by
  induction l with
  | nil => simp [modifyFirst]
  | cons a as ih =>
    by_cases h : p a
    · simp [modifyFirst, h, List.find?_cons_of_pos, hf]
    · simp [modifyFirst, List.find?_cons_of_neg, h, hf, ih]

/-! ### C1 -/

/-- Claim C1, counterexample: an entry holding `pe_ratio = 15` merged with a
snapshot that provides `price = 100` but no `pe_ratio` ends with
`pe_ratio = none` — the known-good value is nulled out, not preserved. -/
theorem upsert_nulls_out_pe_ratio_example :
    ((update_stock_cache
        ⟨[⟨"AAPL", none, some 15, none, none, false, 0⟩], []⟩
        "AAPL" none 7200
        (fun _ => some ⟨none, none, some 100, none⟩)).2.1.map
          (fun e => (e.pe_ratio, e.price))) = some (none, some 100) := by
  norm_num [update_stock_cache, fetch_stock_info, List.find?, modifyFirst, pyOrStr]

/-- Claim C1 (corrected): on a successful refresh of an existing entry, the
update overwrites `pe_ratio`, `price` and `market_cap` with the snapshot's
values verbatim (absent snapshot fields null out previous values); only
`company_name` falls back to the previous value when the snapshot's one is
falsy; `last_updated` advances to `now`. -/
theorem upsert_result_fields (db : DB) (t : String) (cn : Option String)
    (now : ℚ) (provider : String → Option ProviderInfo) (e : StockCacheEntry)
    (info : ProviderInfo)
    (hfind : db.cache.find? (fun x => x.ticker == t) = some e)
    (hstale : ¬ now - e.last_updated < 3600)
    (hprov : provider t = some info) :
    (update_stock_cache db t cn now provider).2.1 = some
      { e with
        company_name := pyOrStr info.company_name e.company_name
        pe_ratio := info.pe_ratio
        price := info.price
        market_cap := info.market_cap
        last_updated := now } ∧
    (update_stock_cache db t cn now provider).1.cache =
      modifyFirst (fun x => x.ticker == t)
        (fun _ =>
          { e with
            company_name := pyOrStr info.company_name e.company_name
            pe_ratio := info.pe_ratio
            price := info.price
            market_cap := info.market_cap
            last_updated := now }) db.cache := by
  simp [update_stock_cache, hfind, hstale, fetch_stock_info, hprov]

/-- Claim C1, witness for `upsert_result_fields`. -/
theorem upsert_result_fields_witness :
    (update_stock_cache
        ⟨[⟨"AAPL", none, some 15, none, none, false, 0⟩], []⟩
        "AAPL" none 7200
        (fun _ => some ⟨some "Apple", some 12, some 100, some 5⟩)).2.1 =
      some ⟨"AAPL", some "Apple", some 12, some 100, some 5, false, 7200⟩ := by
  have h := upsert_result_fields
    ⟨[⟨"AAPL", none, some 15, none, none, false, 0⟩], []⟩
    "AAPL" none 7200
    (fun _ => some ⟨some "Apple", some 12, some 100, some 5⟩)
    ⟨"AAPL", none, some 15, none, none, false, 0⟩
    ⟨some "Apple", some 12, some 100, some 5⟩
    rfl (by norm_num) rfl
  simpa [pyOrStr] using h.1

/-! ### C2 -/

/-- Claim C2, counterexample: at exactly one hour since `last_updated`,
`_is_stock_data_stale` reports fresh, yet `_update_stock_cache` still
consults the provider — the two checks do not apply a single consistent
boundary. -/
theorem staleness_boundary_mismatch_example :
    is_stock_data_stale ⟨"AAPL", none, none, none, none, false, 0⟩ 3600 = false ∧
    (update_stock_cache ⟨[⟨"AAPL", none, none, none, none, false, 0⟩], []⟩
        "AAPL" none 3600 (fun _ => none)).2.2 = true := by
  norm_num [update_stock_cache, fetch_stock_info, is_stock_data_stale, List.find?]

/-- Claim C2 (corrected): the staleness predicate is true iff strictly more
than one hour has passed (exactly one hour is non-stale), but the refresh
path of `_update_stock_cache` reuses the entry iff strictly less than one
hour has passed, so the two checks disagree exactly at the one-hour
boundary. -/
theorem staleness_checks_characterization (db : DB) (t : String)
    (cn : Option String) (now : ℚ) (provider : String → Option ProviderInfo)
    (e : StockCacheEntry)
    (hfind : db.cache.find? (fun x => x.ticker == t) = some e) :
    (is_stock_data_stale e now = true ↔ now - e.last_updated > 3600) ∧
    ((update_stock_cache db t cn now provider).2.2 = false ↔
      now - e.last_updated < 3600) := by
  constructor
  · simp [is_stock_data_stale]
  · by_cases h : now - e.last_updated < 3600
    · simp [update_stock_cache, hfind, h]
    · rcases hp : fetch_stock_info provider t with _ | si <;>
        simp [update_stock_cache, hfind, h, hp]

/-- Claim C2, witness for `staleness_checks_characterization`. -/
theorem staleness_checks_characterization_witness :
    (is_stock_data_stale ⟨"AAPL", none, none, none, none, false, 0⟩ 7200 = true ↔
      (7200 : ℚ) - 0 > 3600) ∧
    ((update_stock_cache ⟨[⟨"AAPL", none, none, none, none, false, 0⟩], []⟩
        "AAPL" none 7200 (fun _ => none)).2.2 = false ↔ (7200 : ℚ) - 0 < 3600) :=
  staleness_checks_characterization
    ⟨[⟨"AAPL", none, none, none, none, false, 0⟩], []⟩
    "AAPL" none 7200 (fun _ => none)
    ⟨"AAPL", none, none, none, none, false, 0⟩ rfl

/-! ### C3 -/

/-- Claim C3, counterexample: at exactly one hour the entry is non-stale by
`_is_stock_data_stale`, yet `_update_stock_cache` does not return it
unchanged — a successful provider response replaces its `pe_ratio`. -/
theorem refresh_boundary_fetch_example :
    is_stock_data_stale ⟨"AAPL", none, some 15, none, none, false, 0⟩ 3600 = false ∧
    ((update_stock_cache ⟨[⟨"AAPL", none, some 15, none, none, false, 0⟩], []⟩
        "AAPL" none 3600
        (fun _ => some ⟨none, some 99, none, none⟩)).2.1.map
          (fun e => e.pe_ratio)) = some (some 99) := by
  norm_num [update_stock_cache, fetch_stock_info, is_stock_data_stale, List.find?,
    modifyFirst, pyOrStr]

/-- Claim C3 (corrected): `_update_stock_cache` returns the entry unchanged
with no provider call when the entry is present and strictly less than one
hour old (at exactly one hour a fetch is attempted even though the entry is
not stale); when a fetch is attempted and fails it returns the existing
entry as-is with the database untouched, and with no entry at all it
returns `none` with the database untouched. -/
theorem refresh_if_stale_behavior (db : DB) (t : String) (cn : Option String)
    (now : ℚ) (provider : String → Option ProviderInfo) :
    (∀ e, db.cache.find? (fun x => x.ticker == t) = some e →
      now - e.last_updated < 3600 →
      update_stock_cache db t cn now provider = (db, some e, false)) ∧
    (∀ e, db.cache.find? (fun x => x.ticker == t) = some e →
      ¬ now - e.last_updated < 3600 → provider t = none →
      update_stock_cache db t cn now provider = (db, some e, true)) ∧
    (db.cache.find? (fun x => x.ticker == t) = none → provider t = none →
      update_stock_cache db t cn now provider = (db, none, true)) := by
  refine ⟨fun e hfind hfresh => ?_, fun e hfind hstale hfail => ?_,
    fun hfind hfail => ?_⟩
  · simp [update_stock_cache, hfind, hfresh]
  · simp [update_stock_cache, hfind, hstale, fetch_stock_info, hfail]
  · simp [update_stock_cache, hfind, fetch_stock_info, hfail]

/-- Claim C3, witness for `refresh_if_stale_behavior`. -/
theorem refresh_if_stale_behavior_witness :
    update_stock_cache ⟨[], []⟩ "AAPL" none 0 (fun _ => none) =
      (⟨[], []⟩, none, true) :=
  (refresh_if_stale_behavior ⟨[], []⟩ "AAPL" none 0 (fun _ => none)).2.2 rfl rfl

/-! ### C5 -/

/-- Claim C5 (confirmed): the two write paths are disjoint —
`_update_stock_cache` never changes the historical series store, and
`update_all_stocks` never changes the latest-snapshot cache. -/
theorem write_paths_disjoint (db₁ : DB) (t : String) (cn : Option String)
    (now₁ : ℚ) (provider₁ : String → Option ProviderInfo)
    (db₂ : DB) (tickers : List String) (thr : ℚ)
    (provider₂ : String → Option ProviderInfo) (now₂ : ℚ) :
    (update_stock_cache db₁ t cn now₁ provider₁).1.history = db₁.history ∧
    (update_all_stocks db₂ tickers thr provider₂ now₂).1.cache = db₂.cache := by
  constructor
  · rcases hf : db₁.cache.find? (fun e => e.ticker == t) with _ | e
    · rcases hp : fetch_stock_info provider₁ t with _ | si <;>
        simp [update_stock_cache, hf, hp]
    · by_cases h : now₁ - e.last_updated < 3600
      · simp [update_stock_cache, hf, h]
      · rcases hp : fetch_stock_info provider₁ t with _ | si <;>
          simp [update_stock_cache, hf, h, hp]
  · induction tickers generalizing db₂ with
    | nil => simp [update_all_stocks]
    | cons a as ih =>
      rcases hp : fetch_stock_data provider₂ a with _ | sd <;>
        simp [update_all_stocks, hp, save_stock_data, ih]

/-! ### C4 and C10: the batch update path -/

/-- The history row `update_all_stocks` saves for ticker `t` when the
provider answers with `info` at time `now`. -/
def tracked_row (t : String) (info : ProviderInfo) (now : ℚ) : StockRow :=
  { ticker := t
    pe_ratio := info.pe_ratio
    price := info.price
    market_cap := info.market_cap
    timestamp := now }

/-- The rows `update_all_stocks` saves: one per ticker whose fetch
succeeds, in input order. -/
def tracked_rows (tickers : List String) (provider : String → Option ProviderInfo)
    (now : ℚ) : List StockRow :=
  tickers.filterMap fun t => (provider t).map fun info => tracked_row t info now

/-- The `check_pe_threshold` invocations `update_all_stocks` performs: one
per ticker whose fetch succeeds with a truthy (present and nonzero)
`pe_ratio`. -/
def tracked_evals (tickers : List String) (provider : String → Option ProviderInfo)
    (threshold : ℚ) : List (String × Bool) :=
  tickers.filterMap fun t => (provider t).bind fun info =>
    if pyTruthy info.pe_ratio then
      some (t, check_pe_threshold info.pe_ratio threshold)
    else none

/-- Full characterisation of `update_all_stocks`: it appends exactly the
rows of the successful fetches to the history (cache untouched), returns
those rows, and runs the threshold check exactly on the successes with a
truthy `pe_ratio`. -/
theorem update_all_stocks_eq (db : DB) (tickers : List String) (thr : ℚ)
    (provider : String → Option ProviderInfo) (now : ℚ) :
    update_all_stocks db tickers thr provider now =
      ({ db with history := db.history ++ tracked_rows tickers provider now },
        tracked_rows tickers provider now,
        tracked_evals tickers provider thr) := by
  induction tickers generalizing db with
  | nil => simp [update_all_stocks, tracked_rows, tracked_evals]
  | cons a as ih =>
    rcases hp : provider a with _ | info
    · simp [update_all_stocks, fetch_stock_data, hp, tracked_rows,
        tracked_evals, ih, List.filterMap_cons]
    · by_cases ht : pyTruthy info.pe_ratio = true <;>
        simp [update_all_stocks, fetch_stock_data, hp, save_stock_data, ih,
          tracked_rows, tracked_evals, tracked_row, List.filterMap_cons,
          List.append_assoc, ht]

/-- Claim C4, counterexample: a ticker whose fetch succeeds with
`pe_ratio = 0.0` yields a saved record, and the threshold evaluator would
flag it (`0 < 20`), yet the batch path never invokes the evaluator for it. -/
theorem update_tracked_skips_evaluator_example :
    ((update_all_stocks ⟨[], []⟩ ["AAPL"] 20
        (fun _ => some ⟨none, some 0, none, none⟩) 100).2.1.length = 1) ∧
    ((update_all_stocks ⟨[], []⟩ ["AAPL"] 20
        (fun _ => some ⟨none, some 0, none, none⟩) 100).2.2 = []) ∧
    check_pe_threshold (some 0) 20 = true := by
  norm_num [update_all_stocks, fetch_stock_data, save_stock_data, pyTruthy,
    check_pe_threshold]

/-- Claim C4 (corrected): `update_all_stocks` processes the tickers in
order; each successful fetch appends one history row timestamped `now` and
is collected in the returned sequence, while the threshold evaluator runs
only when the fetched `pe_ratio` is present and nonzero; a failing ticker
is skipped — it aborts nothing, contributes no returned record and no
history row. -/
theorem update_tracked_characterization (db : DB) (tickers : List String)
    (thr : ℚ) (provider : String → Option ProviderInfo) (now : ℚ) :
    update_all_stocks db tickers thr provider now =
      ({ db with history := db.history ++ tracked_rows tickers provider now },
        tracked_rows tickers provider now,
        tracked_evals tickers provider thr) :=
  update_all_stocks_eq db tickers thr provider now

/-- Claim C10 (confirmed): in the batch path a snapshot fetched with
`pe_ratio = 0.0` is saved to the history store but triggers no evaluator
invocation, even though `check_pe_threshold` itself returns true exactly
when the ratio is present and strictly below the threshold (hence would
flag `0.0` against any positive threshold). -/
theorem threshold_gating_spec (db : DB) (thr : ℚ)
    (provider : String → Option ProviderInfo) (now : ℚ) (t : String)
    (info : ProviderInfo) (hp : provider t = some info)
    (h0 : info.pe_ratio = some 0) :
    (update_all_stocks db [t] thr provider now).2.2 = [] ∧
    (update_all_stocks db [t] thr provider now).1.history =
      db.history ++ [tracked_row t info now] ∧
    (update_all_stocks db [t] thr provider now).2.1 = [tracked_row t info now] ∧
    (∀ pe th, check_pe_threshold pe th = true ↔ ∃ v, pe = some v ∧ v < th) := by
  have h := update_all_stocks_eq db [t] thr provider now
  refine ⟨?_, ?_, ?_, ?_⟩
  · rw [h]
    simp [tracked_evals, hp, h0, pyTruthy]
  · rw [h]
    simp [tracked_rows, hp]
  · rw [h]
    simp [tracked_rows, hp]
  · intro pe th
    cases pe <;> simp [check_pe_threshold]

/-- Claim C10, witness for `threshold_gating_spec`. -/
theorem threshold_gating_spec_witness :
    (update_all_stocks ⟨[], []⟩ ["AAPL"] 20
        (fun _ => some ⟨none, some 0, none, none⟩) 100).2.2 = [] ∧
    (update_all_stocks ⟨[], []⟩ ["AAPL"] 20
        (fun _ => some ⟨none, some 0, none, none⟩) 100).1.history =
      [] ++ [tracked_row "AAPL" ⟨none, some 0, none, none⟩ 100] ∧
    (update_all_stocks ⟨[], []⟩ ["AAPL"] 20
        (fun _ => some ⟨none, some 0, none, none⟩) 100).2.1 =
      [tracked_row "AAPL" ⟨none, some 0, none, none⟩ 100] ∧
    (∀ pe th, check_pe_threshold pe th = true ↔ ∃ v, pe = some v ∧ v < th) :=
  threshold_gating_spec ⟨[], []⟩ 20 (fun _ => some ⟨none, some 0, none, none⟩)
    100 "AAPL" ⟨none, some 0, none, none⟩ rfl rfl

/-! ### C7 -/

/-- Claim C7 (confirmed): `add_stock_to_cache` inserts a row with null
metric fields and `last_updated = now - 2 hours` iff no row exists yet
(leaving an existing row untouched and reporting `false` then); the fresh
row is immediately stale, and an immediate `_update_stock_cache` on it
performs a provider fetch. -/
theorem ensure_registered_spec (db : DB) (t : String) (cn : Option String)
    (now : ℚ) (provider : String → Option ProviderInfo) :
    (∀ e, db.cache.find? (fun x => x.ticker == t) = some e →
      add_stock_to_cache db t cn now = (db, false)) ∧
    (db.cache.find? (fun x => x.ticker == t) = none →
      add_stock_to_cache db t cn now =
        ({ db with cache := db.cache ++
            [{ ticker := t, company_name := cn, pe_ratio := none, price := none,
               market_cap := none, is_favorite := false,
               last_updated := now - 7200 }] }, true) ∧
      is_stock_data_stale
        { ticker := t, company_name := cn, pe_ratio := none, price := none,
          market_cap := none, is_favorite := false,
          last_updated := now - 7200 } now = true ∧
      (update_stock_cache (add_stock_to_cache db t cn now).1 t cn now
        provider).2.2 = true) := by
  constructor
  · intro e hfind
    simp [add_stock_to_cache, hfind]
  · intro hfind
    refine ⟨by simp [add_stock_to_cache, hfind], ?_, ?_⟩
    · simp only [is_stock_data_stale, decide_eq_true_eq]
      linarith
    · have hcache : (add_stock_to_cache db t cn now).1.cache =
          db.cache ++
            [{ ticker := t, company_name := cn, pe_ratio := none, price := none,
               market_cap := none, is_favorite := false,
               last_updated := now - 7200 }] := by
        simp [add_stock_to_cache, hfind]
      have hfind' : (add_stock_to_cache db t cn now).1.cache.find?
          (fun x => x.ticker == t) = some
            { ticker := t, company_name := cn, pe_ratio := none, price := none,
              market_cap := none, is_favorite := false,
              last_updated := now - 7200 } := by
        rw [hcache, List.find?_append, hfind]
        simp
      rcases hp : fetch_stock_info provider t with _ | si <;>
        simp [update_stock_cache, hfind', hp] <;> norm_num

/-- Claim C7, witness for `ensure_registered_spec`. -/
theorem ensure_registered_spec_witness :
    add_stock_to_cache ⟨[], []⟩ "XYZ" none 10000 =
      (⟨[⟨"XYZ", none, none, none, none, false, (10000 : ℚ) - 7200⟩], []⟩, true) ∧
    (update_stock_cache (add_stock_to_cache ⟨[], []⟩ "XYZ" none 10000).1
      "XYZ" none 10000 (fun _ => none)).2.2 = true := by
  have h := (ensure_registered_spec ⟨[], []⟩ "XYZ" none 10000 (fun _ => none)).2 rfl
  exact ⟨h.1, h.2.2⟩

/-! ### C9 -/

/-- Claim C9 (intended behavior, modelled with the spec's `is_favorite`
field): `toggle_favorite` on a cached ticker flips its favorite flag in
place and reports the new value, touching nothing else; on an unknown
ticker it fails and leaves the database unchanged.  The running code
diverges from this on the present-ticker branch because `StockCache` in
`app/models.py` declares no `is_favorite` column, so line 447 of
`stock_service.py` raises `AttributeError` instead. -/
theorem toggle_favorite_spec (db : DB) (t : String) :
    (db.cache.find? (fun x => x.ticker == t) = none →
      toggle_favorite db t = (db, none)) ∧
    (∀ e, db.cache.find? (fun x => x.ticker == t) = some e →
      (toggle_favorite db t).2 = some (!e.is_favorite) ∧
      (toggle_favorite db t).1.history = db.history ∧
      (toggle_favorite db t).1.cache.find? (fun x => x.ticker == t) =
        some { e with is_favorite := !e.is_favorite }) := by
  constructor
  · intro hfind
    simp [toggle_favorite, hfind]
  · intro e hfind
    refine ⟨by simp [toggle_favorite, hfind], by simp [toggle_favorite, hfind], ?_⟩
    have hmod := find?_modifyFirst (fun x => x.ticker == t)
      (fun e => { e with is_favorite := !e.is_favorite }) db.cache (fun x => rfl)
    simp [toggle_favorite, hfind, hmod]

/-- Claim C9, witness for `toggle_favorite_spec`. -/
theorem toggle_favorite_spec_witness :
    (toggle_favorite ⟨[⟨"AAPL", none, none, none, none, false, 0⟩], []⟩ "AAPL").2 =
      some true ∧
    (toggle_favorite ⟨[⟨"AAPL", none, none, none, none, false, 0⟩], []⟩
        "AAPL").1.cache.find? (fun x => x.ticker == "AAPL") =
      some ⟨"AAPL", none, none, none, none, true, 0⟩ := by
  have h := (toggle_favorite_spec
    ⟨[⟨"AAPL", none, none, none, none, false, 0⟩], []⟩ "AAPL").2
    ⟨"AAPL", none, none, none, none, false, 0⟩ rfl
  exact ⟨h.1, h.2.2⟩

/-! ### C6: the rate limiter -/

theorem enforce_rate_limit_last_eq_now (s : RLState) :
    (enforce_rate_limit s).last_request_time = (enforce_rate_limit s).now := rfl

theorem enforce_rate_limit_ge (s : RLState) :
    s.last_request_time + min_request_interval ≤
      (enforce_rate_limit s).last_request_time := by
  by_cases h' : s.now - s.last_request_time < min_request_interval
  · simp only [enforce_rate_limit, if_pos h']
    linarith
  · simp only [enforce_rate_limit, if_neg h']
    linarith [not_lt.mp h']

theorem passage_times_length (s : RLState) (ds : List ℚ) :
    (passage_times s ds).length = ds.length := by
  induction ds generalizing s with
  | nil => rfl
  | cons d ds ih => simp [passage_times, ih]

theorem passage_times_head_ge (s : RLState) (ds : List ℚ) :
    ∀ y ∈ (passage_times s ds).head?,
      s.last_request_time + min_request_interval ≤ y := by
  cases ds with
  | nil => intro y hy; simp [passage_times] at hy
  | cons d ds =>
    intro y hy
    simp only [passage_times, List.head?_cons, Option.mem_def,
      Option.some.injEq] at hy
    have hge := enforce_rate_limit_ge { s with now := s.now + d }
    rw [hy] at hge
    exact hge

theorem passage_times_chain (s : RLState) (ds : List ℚ) :
    List.Chain' (fun a b => a + min_request_interval ≤ b)
      (passage_times s ds) := by
  induction ds generalizing s with
  | nil => simp [passage_times]
  | cons d ds ih =>
    simp only [passage_times]
    rw [List.chain'_cons']
    exact ⟨passage_times_head_ge _ ds, ih _⟩

theorem chain'_add_le_get (c : ℚ) (l : List ℚ)
    (hc : List.Chain' (fun a b => a + c ≤ b) l) (i k : ℕ)
    (hk : i + k < l.length) :
    l.get ⟨i, by omega⟩ + (k : ℚ) * c ≤ l.get ⟨i + k, hk⟩ := by
  induction k with
  | zero => simp
  | succ k ihk =>
    have hk' : i + k < l.length := by omega
    have h1 := ihk hk'
    have hstep := List.chain'_iff_get.mp hc (i + k) (by omega)
    have h2 : l.get ⟨i + (k + 1), hk⟩ = l.get ⟨i + k + 1, by omega⟩ := rfl
    rw [h2]
    push_cast
    linarith [h1, hstep]

/-- Claim C6 (confirmed): under the idealised clock, any two passages `k`
apart through `_enforce_rate_limit` are separated by at least
`k * _min_request_interval` — in particular consecutive passages (`k = 1`)
by at least half a second, and the first and last of `N` back-to-back
calls by at least `(N - 1) * 0.5` seconds.  The guarantee needs no assumption on the
inter-call delays `ds`: the sleep is computed against the shared
`last_request_time`, so even a clock running backwards between calls
cannot shrink the floor. -/
theorem rate_limiter_floor_interval (s : RLState) (ds : List ℚ) (i k : ℕ)
    (hk : i + k < (passage_times s ds).length) :
    (passage_times s ds).get ⟨i, by omega⟩ + (k : ℚ) * min_request_interval
      ≤ (passage_times s ds).get ⟨i + k, hk⟩ :=
  chain'_add_le_get min_request_interval (passage_times s ds)
    (passage_times_chain s ds) i k hk

/-- Claim C6, witness for `rate_limiter_floor_interval`: three back-to-back
calls starting from an idle limiter; the third passage is at least
`2 * 0.5` seconds after the first. -/
theorem rate_limiter_floor_interval_witness :
    (passage_times ⟨0, 0⟩ [0, 0, 0]).get
        ⟨0, by norm_num [passage_times_length]⟩ +
      ((2 : ℕ) : ℚ) * min_request_interval
      ≤ (passage_times ⟨0, 0⟩ [0, 0, 0]).get
          ⟨0 + 2, by norm_num [passage_times_length]⟩ :=
  rate_limiter_floor_interval ⟨0, 0⟩ [0, 0, 0] 0 2
    (by norm_num [passage_times_length])

/-! ### C8: the historical query -/

theorem ts_desc_trans : ∀ a b c : StockRow,
    decide (b.timestamp ≤ a.timestamp) = true →
    decide (c.timestamp ≤ b.timestamp) = true →
    decide (c.timestamp ≤ a.timestamp) = true := by
  intro a b c h1 h2
  simp only [decide_eq_true_eq] at h1 h2 ⊢
  exact le_trans h2 h1

theorem ts_desc_total : ∀ a b : StockRow,
    (decide (b.timestamp ≤ a.timestamp) || decide (a.timestamp ≤ b.timestamp)) =
      true := by
  intro a b
  simp only [Bool.or_eq_true, decide_eq_true_eq]
  exact le_total b.timestamp a.timestamp

/-- Claim C8 (confirmed): `get_historical_pe_data` returns `limit` records
when at least that many are stored for the ticker and all of them
otherwise; the result is ascending in timestamp, is drawn from the
ticker's records, and consists of most-recent ones — any stored record of
the ticker left out is no newer than anything returned. -/
theorem historical_query_spec (db : DB) (t : String) (limit : ℕ) :
    (get_historical_pe_data db t limit).length =
      min limit (db.history.filter (fun r => r.ticker == t)).length ∧
    List.Pairwise (fun a b : StockRow => a.timestamp ≤ b.timestamp)
      (get_historical_pe_data db t limit) ∧
    (get_historical_pe_data db t limit).Subperm
      (db.history.filter (fun r => r.ticker == t)) ∧
    (∀ y ∈ db.history.filter (fun r => r.ticker == t),
      y ∉ get_historical_pe_data db t limit →
      ∀ x ∈ get_historical_pe_data db t limit, y.timestamp ≤ x.timestamp) := by
  have hperm := List.mergeSort_perm (db.history.filter (fun r => r.ticker == t))
    (fun a b => decide (b.timestamp ≤ a.timestamp))
  have hsorted := List.sorted_mergeSort ts_desc_trans ts_desc_total
    (db.history.filter (fun r => r.ticker == t))
  have hsorted' : List.Pairwise (fun a b : StockRow => b.timestamp ≤ a.timestamp)
      ((db.history.filter (fun r => r.ticker == t)).mergeSort
        (fun a b => decide (b.timestamp ≤ a.timestamp))) :=
    hsorted.imp (by intro a b h; exact decide_eq_true_eq.mp h)
  have hres : get_historical_pe_data db t limit =
      (((db.history.filter (fun r => r.ticker == t)).mergeSort
        (fun a b => decide (b.timestamp ≤ a.timestamp))).take limit).reverse := rfl
  refine ⟨?_, ?_, ?_, ?_⟩
  · rw [hres]
    simp [hperm.length_eq]
  · rw [hres, List.pairwise_reverse]
    exact List.Pairwise.sublist (List.take_sublist _ _) hsorted'
  · rw [hres]
    exact List.Subperm.trans (List.Perm.subperm (List.reverse_perm _))
      (List.Subperm.trans ((List.take_sublist _ _).subperm) hperm.subperm)
  · intro y hy hynot x hx
    rw [hres, List.mem_reverse] at hx hynot
    have hysorted : y ∈ (db.history.filter (fun r => r.ticker == t)).mergeSort
        (fun a b => decide (b.timestamp ≤ a.timestamp)) := hperm.mem_iff.mpr hy
    have hsplit := List.take_append_drop limit
      ((db.history.filter (fun r => r.ticker == t)).mergeSort
        (fun a b => decide (b.timestamp ≤ a.timestamp)))
    have hydrop : y ∈ ((db.history.filter (fun r => r.ticker == t)).mergeSort
        (fun a b => decide (b.timestamp ≤ a.timestamp))).drop limit := by
      rcases List.mem_append.mp (by rw [hsplit]; exact hysorted) with h | h
      · exact absurd h hynot
      · exact h
    have hpair := (List.pairwise_append.mp
      (by rw [hsplit]; exact hsorted')).2.2
    exact hpair x hx y hydrop

end StockTracker
